import Mathlib

/-!
Shallow embedding of the resumable chunked downloader of
`src/core/downloader.py` (class `Downloader`), together with proofs of the
specified properties of its chunk loop, size probe, resume logic, fallback
path, filename generation and header preparation.

Modelling conventions:
- HTTP traffic is scripted: each iteration of the chunk loop consumes one
  `ChunkEvent` from a list, describing what `requests.get` (and the
  subsequent body-writing loop) did on that iteration.  The event list also
  bounds the number of iterations, so the loop is structurally recursive;
  a run that exhausts its script while the loop still wants a response is a
  model artifact reported as `LoopResult.starved` / `Option.none`.
- Python exceptions are modelled as explicit outcomes (`Except.error`,
  `ChunkEvent.raise`, `ChunkEvent.respWriteFail`, `FallbackEvent.getExn`,
  `FallbackEvent.streamExn`); the `try/except` structure of the source
  becomes the corresponding case analysis.
- The destination file is the list of bytes written to it, in order; machine
  strings of the HTTP layer (header values) are lists of characters.
-/

deriving instance DecidableEq for Except

/-- One HTTP request issued by the downloader.  `range = none` means no
`Range` header is sent; `some (s, some e)` is `Range: bytes=s-e`;
`some (s, none)` is the open-ended `Range: bytes=s-`. -/
structure HttpRequest where
  headers : List (String × String)
  cookies : List (String × String)
  range : Option (Nat × Option Nat)
  deriving DecidableEq

/-- File open mode used by `_download_with_resume` line 194:
`"ab"` (append) when a partial file exists, `"wb"` (create/truncate)
otherwise. -/
inductive FileMode where
  | append
  | truncate
  deriving DecidableEq

/-- What happened on one iteration of the chunk loop of
`_download_with_resume` (lines 202-227): the ranged `requests.get` either
returned a response of a given status whose body was then fully written
(`resp`), returned a 200/206 response whose body-writing loop raised an
IOError after a prefix of the body was written (`respWriteFail`), or raised
itself (network error / timeout, `raise`). -/
inductive ChunkEvent where
  | resp (status : Nat) (body : List Nat)
  | respWriteFail (status : Nat) (written : List Nat) (msg : String)
  | raise (msg : String)
  deriving DecidableEq

/-- Event is a response with status 200 or 206 (the success branch of
line 205). -/
def ChunkEvent.okResp : ChunkEvent → Bool
  | .resp s _ => s == 200 || s == 206
  | _ => false

/-- Event is a 403 response (the retry branch of line 222). -/
def ChunkEvent.is403 : ChunkEvent → Bool
  | .resp s _ => s == 403
  | _ => false

/-- Mutable state of the chunk loop: the `downloaded` byte counter, the
bytes of the destination file, and the byte ranges of the ranged requests
issued so far (in order). -/
structure LoopState where
  downloaded : Nat
  file : List Nat
  requests : List (Nat × Nat)
  deriving DecidableEq

/-- Result of the chunk loop `while downloaded < size` of
`_download_with_resume`: normal exit (`return True` at line 233), abort on
an unexpected status (`return False` at line 227), an exception escaping
the loop (caught at line 235), or exhaustion of the scripted events (model
artifact). -/
inductive LoopResult where
  | completed (st : LoopState)
  | failed (st : LoopState)
  | raised (msg : String) (st : LoopState)
  | starved (st : LoopState)
  deriving DecidableEq

/-- The state carried by a `LoopResult`. -/
def LoopResult.state : LoopResult → LoopState
  | .completed st => st
  | .failed st => st
  | .raised _ st => st
  | .starved st => st

/-- `nextEnd size chunkSize d` is `end = min(downloaded + chunk_size - 1,
size - 1)` of line 198. -/
def nextEnd (size chunkSize d : Nat) : Nat :=
  min (d + chunkSize - 1) (size - 1)

/-- The chunk loop of `_download_with_resume` (lines 197-227).  Each
iteration computes `end = min (downloaded + chunk_size - 1) (size - 1)`,
issues `Range: bytes=downloaded-end`, then: on status 200/206 writes the
body and sets `downloaded = end + 1`; on 403 retries the same range without
touching `downloaded`; on any other status returns `False`; an exception
(from `requests.get` or from `f.write`) escapes the loop. -/
def runLoop (size chunkSize : Nat) : List ChunkEvent → LoopState → LoopResult
  | [], st => if st.downloaded < size then .starved st else .completed st
  | ev :: evs, st =>
    if st.downloaded < size then
      match ev with
      | .resp status body =>
        if status = 200 ∨ status = 206 then
          runLoop size chunkSize evs
            ⟨nextEnd size chunkSize st.downloaded + 1, st.file ++ body,
              st.requests ++ [(st.downloaded, nextEnd size chunkSize st.downloaded)]⟩
        else if status = 403 then
          runLoop size chunkSize evs
            ⟨st.downloaded, st.file,
              st.requests ++ [(st.downloaded, nextEnd size chunkSize st.downloaded)]⟩
        else
          .failed ⟨st.downloaded, st.file,
            st.requests ++ [(st.downloaded, nextEnd size chunkSize st.downloaded)]⟩
      | .respWriteFail status written msg =>
        if status = 200 ∨ status = 206 then
          .raised msg ⟨st.downloaded, st.file ++ written,
            st.requests ++ [(st.downloaded, nextEnd size chunkSize st.downloaded)]⟩
        else if status = 403 then
          runLoop size chunkSize evs
            ⟨st.downloaded, st.file,
              st.requests ++ [(st.downloaded, nextEnd size chunkSize st.downloaded)]⟩
        else
          .failed ⟨st.downloaded, st.file,
            st.requests ++ [(st.downloaded, nextEnd size chunkSize st.downloaded)]⟩
      | .raise msg =>
        .raised msg ⟨st.downloaded, st.file,
          st.requests ++ [(st.downloaded, nextEnd size chunkSize st.downloaded)]⟩
    else .completed st

/-- The sequence of byte ranges the chunk loop computes from a given
resume offset: `[d, min (d + C - 1) (T - 1)]` with `d` then advanced to
`end + 1`, until `d ≥ T`.  `fuel` bounds the number of ranges (the loop
itself is bounded by its event script); any `fuel ≥ T - d` yields the
complete sequence. -/
def chunkRanges : Nat → Nat → Nat → Nat → List (Nat × Nat)
  | 0, _, _, _ => []
  | fuel + 1, downloaded, size, chunkSize =>
    if downloaded < size then
      (downloaded, min (downloaded + chunkSize - 1) (size - 1)) ::
        chunkRanges fuel (min (downloaded + chunkSize - 1) (size - 1) + 1) size chunkSize
    else []

/-- Total number of bytes covered by a list of inclusive byte ranges. -/
def sumLens (rs : List (Nat × Nat)) : Nat :=
  (rs.map (fun p => p.2 + 1 - p.1)).sum

/-- Response observed by the size probe `_get_file_size` (lines 239-252):
a status and the optional `Content-Range` / `Content-Length` header values
(header values are character strings). -/
structure ProbeResp where
  status : Nat
  contentRange : Option (List Char)
  contentLength : Option (List Char)
  deriving DecidableEq

/-- Python's `str.split("/")`: the list of `'/'`-separated components
(always nonempty). -/
def splitOnSlash : List Char → List (List Char)
  | [] => [[]]
  | c :: cs =>
    match splitOnSlash cs with
    | [] => [[]]
    | h :: t => if c = '/' then [] :: h :: t else (c :: h) :: t

/-- Python's `int(s)` for a nonnegative decimal literal: `some` its value
when `s` is a nonempty string of digits, `none` (a `ValueError`) otherwise.
(Sign and surrounding-whitespace handling of `int` is elided; the headers
involved carry plain decimal digits.) -/
def pyInt? (s : List Char) : Option Nat :=
  if s.isEmpty then none
  else
    s.foldl
      (fun acc c =>
        match acc with
        | some n => if c.isDigit then some (10 * n + (c.toNat - 48)) else none
        | none => none)
      (some 0)

/-- The request issued by `_get_file_size` (lines 241-243): a GET carrying
the caller's headers with `Range: bytes=0-` added, and the caller's
cookies. -/
def probeRequest (headers cookies : List (String × String)) : HttpRequest :=
  ⟨headers, cookies, some (0, none)⟩

/-- The size probe `_get_file_size` (lines 245-252).  On status 200 or 206:
if a `Content-Range` header is present its value's part after the final `/`
is parsed as the total (`int(cr.split("/")[-1])`); otherwise a present
`Content-Length` value is parsed.  Every other case raises (`Except.error`):
another status or both headers absent raises
`Exception("Could not determine file size")`, an unparseable integer raises
`ValueError`. -/
def getFileSize (resp : ProbeResp) : Except String Nat :=
  if resp.status = 200 ∨ resp.status = 206 then
    match resp.contentRange with
    | some cr =>
      match pyInt? ((splitOnSlash cr).getLastD []) with
      | some n => Except.ok n
      | none => Except.error "invalid literal for int()"
    | none =>
      match resp.contentLength with
      | some cl =>
        match pyInt? cl with
        | some n => Except.ok n
        | none => Except.error "invalid literal for int()"
      | none => Except.error "Could not determine file size"
  else Except.error "Could not determine file size"

/-- What the single unranged GET of `_download_fallback` did: returned a
full body, raised before the destination file was opened (`getExn`), or
raised while streaming after a prefix of the body was written
(`streamExn`). -/
inductive FallbackEvent where
  | ok (body : List Nat)
  | getExn (msg : String)
  | streamExn (written : List Nat) (msg : String)
  deriving DecidableEq

/-- The fallback event is a failure (its `except` branch runs). -/
def FallbackEvent.fails : FallbackEvent → Bool
  | .ok _ => false
  | _ => true

/-- Result of `_download_fallback`: success flag, resulting destination
file content, and the single request it issued. -/
structure FallbackOutcome where
  success : Bool
  file : List Nat
  request : HttpRequest
  deriving DecidableEq

/-- The fallback fetcher `_download_fallback` (lines 254-270): one unranged
streaming GET with the caller's headers and cookies; on success the file is
opened with mode `"wb"` (truncating any prior content) and the whole body
is written; if the GET raises the file is untouched; if streaming raises
mid-write the truncated file holds the prefix written so far; every failure
is caught and reported as `False`, with no retry. -/
def downloadFallback (headers cookies : List (String × String))
    (ev : FallbackEvent) (initFile : List Nat) : FallbackOutcome :=
  match ev with
  | .ok body => ⟨true, body, ⟨headers, cookies, none⟩⟩
  | .getExn _ => ⟨false, initFile, ⟨headers, cookies, none⟩⟩
  | .streamExn written _ => ⟨false, written, ⟨headers, cookies, none⟩⟩

/-- Scripted environment for one `_download_with_resume` call: the result
of the size probe (`Except.error` = the probe raised), the chunk-loop
events, and the behaviour of the fallback GET should it be reached. -/
structure ResumeEnv where
  probe : Except String Nat
  events : List ChunkEvent
  fallback : FallbackEvent
  deriving DecidableEq

/-- Observable outcome of `_download_with_resume`: the returned boolean,
the final destination file content, the ranged requests issued by the chunk
loop, how many times the fallback ran, the fallback's request if it ran,
and the mode the chunked path opened the destination file with (`none` if
the probe raised before the file was opened). -/
structure ResumeOutcome where
  success : Bool
  file : List Nat
  chunkRequests : List (Nat × Nat)
  fallbackRuns : Nat
  fallbackRequest : Option HttpRequest
  mode : Option FileMode
  deriving DecidableEq

/-- The resume check of `_download_with_resume` (lines 188-194): bytes
already on disk (0 when the file does not exist, modelled as `initFile =
[]`) and the resulting open mode, `"ab"` iff nonzero. -/
def resumeState (initFile : List Nat) : Nat × FileMode :=
  (initFile.length, if initFile.length > 0 then FileMode.append else FileMode.truncate)

/-- The body of `_download_with_resume` (lines 183-237): probe the size,
read the resume offset from the existing file, run the chunk loop; any
exception from the probe or the loop is caught at line 235 and answered
with exactly one `_download_fallback` attempt, whose boolean becomes the
result.  `none` is the model artifact of an exhausted event script. -/
def downloadWithResume (env : ResumeEnv) (initFile : List Nat)
    (chunkSize : Nat) (headers cookies : List (String × String)) :
    Option ResumeOutcome :=
  match env.probe with
  | Except.error _ =>
    let fb := downloadFallback headers cookies env.fallback initFile
    some ⟨fb.success, fb.file, [], 1, some fb.request, none⟩
  | Except.ok size =>
    let st0 : LoopState := ⟨(resumeState initFile).1, initFile, []⟩
    let mode := (resumeState initFile).2
    match runLoop size chunkSize env.events st0 with
    | .completed st => some ⟨true, st.file, st.requests, 0, none, some mode⟩
    | .failed st => some ⟨false, st.file, st.requests, 0, none, some mode⟩
    | .raised _ st =>
      let fb := downloadFallback headers cookies env.fallback st.file
      some ⟨fb.success, fb.file, st.requests, 1, some fb.request, some mode⟩
    | .starved _ => none

/-- The chunked path of `_download_with_resume` raises an exception that
the handler at line 235 catches: either the size probe raised, or the
chunk loop ended in a raise (a `requests.get` network error or an IOError
from `f.write`). -/
def ResumeEnv.chunkPathRaises (env : ResumeEnv) (initFile : List Nat)
    (chunkSize : Nat) : Prop :=
  (∃ m, env.probe = Except.error m) ∨
  (∃ T m st, env.probe = Except.ok T ∧
    runLoop T chunkSize env.events ⟨initFile.length, initFile, []⟩
      = LoopResult.raised m st)

/-- File type decided by `_detect_file_type` from the URL extension
(collaborator interface; its internals are outside the verified core). -/
inductive FileType where
  | audio
  | video
  deriving DecidableEq

/-- Python's `os.path.splitext` on a bare filename: split off the extension
at the last `'.'`, except when every character before that dot is itself a
dot (so `".bashrc"` has no extension). -/
def splitextChars (name : List Char) : List Char × List Char :=
  let r := name.reverse
  let afterRev := r.takeWhile (fun c => c ≠ '.')
  if afterRev.length = r.length then (name, [])
  else
    let stemRev := r.drop (afterRev.length + 1)
    if stemRev.all (fun c => c = '.') then (name, [])
    else (stemRev.reverse, '.' :: afterRev.reverse)

/-- String wrapper for `splitextChars`. -/
def splitext (s : String) : String × String :=
  (String.mk (splitextChars s.data).1, String.mk (splitextChars s.data).2)

/-- Python's `os.path.join(dir, name)` for POSIX paths with a single
relative `name` component. -/
def pathJoin (dir name : String) : String :=
  if name.data.head? = some '/' then name
  else if dir = "" ∨ dir.data.getLast? = some '/' then dir ++ name
  else dir ++ "/" ++ name

/-- The filename generator `_generate_output_filename` (lines 152-167).
`originalName` is the URL basename produced by `_extract_filename_from_url`
(`None` when the URL path has no basename); the timestamp is the
`%Y%m%d_%H%M%S`-formatted invocation time.  With a basename the result is
`stem_timestamp.ext`; otherwise `audio_timestamp.mp3` or
`video_timestamp.mp4`; joined onto the output directory. -/
def generateOutputFilename (originalName : Option String) (fileType : FileType)
    (timestamp outputDir : String) : String :=
  match originalName with
  | some nm =>
    pathJoin outputDir ((splitext nm).1 ++ "_" ++ timestamp ++ (splitext nm).2)
  | none =>
    match fileType with
    | .audio => pathJoin outputDir ("audio_" ++ timestamp ++ ".mp3")
    | .video => pathJoin outputDir ("video_" ++ timestamp ++ ".mp4")

/-- Bytes already present at a path, as read by lines 190-191
(`os.path.exists` then `os.path.getsize`): 0 when the file is absent.
`fs` maps each path to the content of the file stored there, if any. -/
def onDiskBytes (fs : String → Option (List Nat)) (path : String) : Nat :=
  match fs path with
  | some content => content.length
  | none => 0

/-- The module-level `DEFAULT_HEADERS` dict (lines 12-24). -/
def DEFAULT_HEADERS : List (String × String) :=
  [("accept", "*/*"),
   ("accept-encoding", "identity;q=1, *;q=0"),
   ("accept-language", "en-GB,en;q=0.9"),
   ("referer", "https://instytutkryptografii.pl/"),
   ("sec-ch-ua", "\"Not;A=Brand\";v=\"99\", \"Google Chrome\";v=\"139\", \"Chromium\";v=\"139\""),
   ("sec-ch-ua-mobile", "?0"),
   ("sec-ch-ua-platform", "\"Windows\""),
   ("sec-fetch-dest", "video"),
   ("sec-fetch-mode", "no-cors"),
   ("sec-fetch-site", "same-site"),
   ("user-agent", "Mozilla/5.0 (Windows NT 10.0; Win64; x64) AppleWebKit/537.36 (KHTML, like Gecko) Chrome/139.0.0.0 Safari/537.36")]

/-- The module-level `DEFAULT_COOKIES` dict (lines 26-36). -/
def DEFAULT_COOKIES : List (String × String) :=
  [("_gcl_au", "1.1.1469172500.1756223364"),
   ("_clck", "22z37h^2^fys^0^2064"),
   ("_fbp", "fb.1.1756223364404.841153882121408119"),
   ("_tt_enable_cookie", "1"),
   ("_ttp", "01K3KH3QFYPQ9VHA6FJRHB2F3E_.tt.1"),
   ("_clsk", "y8a16e^1756223365003^1^1^l.clarity.ms/collect"),
   ("_rdt_uuid", "1756223364386.6f1bd919-07d1-48ab-b0d6-ac06f9d6d13c"),
   ("ttcsid", "1756223364609::WEtoDf_bfWr9sLUa24gG.1.1756223883421"),
   ("ttcsid_CVIMF5BC77U1CRGDMDK0", "1756223364609::cttEkddUIMCE9lPVZ4zB.1.1756223957781")]

/-- Python dict assignment `m[k] = v` on an insertion-ordered association
list: overwrite in place if the key exists, append otherwise. -/
def setAssoc : List (String × String) → String → String → List (String × String)
  | [], k, v => [(k, v)]
  | (k', v') :: rest, k, v =>
    if k' = k then (k, v) :: rest else (k', v') :: setAssoc rest k v

/-- Python's `dict.update`: apply every binding of `upd` over `m`. -/
def updateAssoc (m upd : List (String × String)) : List (String × String) :=
  upd.foldl (fun acc kv => setAssoc acc kv.1 kv.2) m

/-- Header/cookie preparation of `download` (lines 79-95).  With
`no_auth` the headers are the single `User-Agent: Mozilla/5.0` mapping and
the cookies are empty, and neither override file is opened.  Otherwise the
defaults are copied and each provided file is read (reading happens in
headers-then-cookies order; a read/parse exception aborts).  The argument
`Option (Except ...)` is `none` when no file path was passed, and
otherwise the outcome of reading and JSON-parsing that file.  The result
records `(headers, cookies, headers_file read?, cookies_file read?)`; an
error carries `(message, headers_file read?, cookies_file read?)`. -/
def prepareAuth (noAuth : Bool)
    (headersFile cookiesFile : Option (Except String (List (String × String)))) :
    Except (String × Bool × Bool)
      (List (String × String) × List (String × String) × Bool × Bool) :=
  if noAuth then Except.ok ([("User-Agent", "Mozilla/5.0")], [], false, false)
  else
    match headersFile with
    | some (Except.error msg) => Except.error (msg, true, false)
    | some (Except.ok hs) =>
      match cookiesFile with
      | some (Except.error msg) => Except.error (msg, true, true)
      | some (Except.ok cs) =>
        Except.ok (updateAssoc DEFAULT_HEADERS hs, updateAssoc DEFAULT_COOKIES cs, true, true)
      | none => Except.ok (updateAssoc DEFAULT_HEADERS hs, DEFAULT_COOKIES, true, false)
    | none =>
      match cookiesFile with
      | some (Except.error msg) => Except.error (msg, false, true)
      | some (Except.ok cs) =>
        Except.ok (DEFAULT_HEADERS, updateAssoc DEFAULT_COOKIES cs, false, true)
      | none => Except.ok (DEFAULT_HEADERS, DEFAULT_COOKIES, false, false)

/-- Scripted environment for one public `download` call: whether
`os.makedirs` raised, the outcomes of reading the two optional override
files, and the environment of the inner `_download_with_resume` call. -/
structure DownloadEnv where
  makedirsError : Option String
  headersFile : Option (Except String (List (String × String)))
  cookiesFile : Option (Except String (List (String × String)))
  resume : ResumeEnv
  deriving DecidableEq

/-- Observable outcome of the public `download` call: the returned
tri-tuple `(success, output_path, message)`, the number of fallback
attempts made, whether each override file was read, and the header/cookie
sets used for the HTTP requests (empty when the call failed before any
request could be prepared). -/
structure DownloadOutcome where
  result : Bool × String × String
  fallbackRuns : Nat
  readHeadersFile : Bool
  readCookiesFile : Bool
  headersUsed : List (String × String)
  cookiesUsed : List (String × String)
  deriving DecidableEq

/-- The public `download` method (lines 60-134).  Everything runs inside a
broad `try/except` whose handler returns `(False, "", f"Download error:
{e}")`; an unsuccessful `_download_with_resume` yields `(False, "",
"Download failed")` (line 111); a successful video download additionally
runs `_fix_mp4`, whose failure merely degrades the message.  `none` is the
model artifact of an exhausted chunk-event script. -/
def pyDownload (noAuth : Bool) (env : DownloadEnv) (initFile : List Nat)
    (originalName : Option String) (fileType : FileType)
    (timestamp outputDir : String) (fixMp4Ok : Bool) (chunkSize : Nat) :
    Option DownloadOutcome :=
  match env.makedirsError with
  | some msg => some ⟨(false, "", "Download error: " ++ msg), 0, false, false, [], []⟩
  | none =>
    match prepareAuth noAuth env.headersFile env.cookiesFile with
    | Except.error (msg, rh, rc) =>
      some ⟨(false, "", "Download error: " ++ msg), 0, rh, rc, [], []⟩
    | Except.ok (headers, cookies, rh, rc) =>
      let outputFile := generateOutputFilename originalName fileType timestamp outputDir
      match downloadWithResume env.resume initFile chunkSize headers cookies with
      | none => none
      | some r =>
        if r.success then
          match fileType with
          | .video =>
            if fixMp4Ok then
              some ⟨(true, (splitext outputFile).1 ++ "_fixed.mp4",
                "Download and optimization complete"), r.fallbackRuns, rh, rc, headers, cookies⟩
            else
              some ⟨(true, outputFile, "Download complete (optimization failed)"),
                r.fallbackRuns, rh, rc, headers, cookies⟩
          | .audio =>
            some ⟨(true, outputFile, "Download complete"), r.fallbackRuns, rh, rc, headers, cookies⟩
        else
          some ⟨(false, "", "Download failed"), r.fallbackRuns, rh, rc, headers, cookies⟩

/-! ### Helper lemmas about `chunkRanges` -/

/-- Every range the loop computes starts no earlier than the resume offset,
is well-formed (`start ≤ end`), ends strictly inside the file, and its end
is exactly `min (start + C - 1) (T - 1)`. -/
theorem chunkRanges_bounds {C : Nat} (hC : 0 < C) :
    ∀ fuel d T, ∀ p ∈ chunkRanges fuel d T C,
      d ≤ p.1 ∧ p.1 ≤ p.2 ∧ p.2 < T ∧ p.2 = min (p.1 + C - 1) (T - 1) := by
  intro fuel
  induction fuel with
  | zero => intro d T p hp; simp [chunkRanges] at hp
  | succ n ih =>
    intro d T p hp
    rw [chunkRanges] at hp
    by_cases h : d < T
    · rw [if_pos h] at hp
      rcases List.mem_cons.mp hp with hp | hp
      · subst hp
        refine ⟨Nat.le_refl d, ?_, ?_, rfl⟩ <;> simp only <;> omega
      · have h2 := ih _ _ p hp
        have : d ≤ min (d + C - 1) (T - 1) + 1 := by omega
        exact ⟨by omega, h2.2.1, h2.2.2.1, h2.2.2.2⟩
    · rw [if_neg h] at hp
      simp at hp

/-- The first computed range, when there is one, starts at the current
resume offset. -/
theorem chunkRanges_head_start {fuel d T C : Nat} {p : Nat × Nat}
    (h : (chunkRanges fuel d T C).head? = some p) : p.1 = d := by
  cases fuel with
  | zero => simp [chunkRanges] at h
  | succ n =>
    rw [chunkRanges] at h
    by_cases hd : d < T
    · rw [if_pos hd] at h
      simp only [List.head?_cons, Option.some_inj] at h
      subst h; rfl
    · rw [if_neg hd] at h
      simp at h

/-- Successive computed ranges are contiguous: each starts one byte after
its predecessor ends. -/
theorem chunkRanges_chain :
    ∀ fuel d T C, List.Chain' (fun a b : Nat × Nat => b.1 = a.2 + 1)
      (chunkRanges fuel d T C) := by
  intro fuel
  induction fuel with
  | zero => intro d T C; simp [chunkRanges]
  | succ n ih =>
    intro d T C
    rw [chunkRanges]
    by_cases h : d < T
    · rw [if_pos h]
      refine List.chain'_cons'.mpr ⟨?_, ih _ _ _⟩
      intro p hp
      exact chunkRanges_head_start hp
    · rw [if_neg h]; exact List.chain'_nil

/-- With `fuel` iterations of chunk size `C` covering the remaining bytes,
the computed ranges cover exactly the remaining `T - d` bytes. -/
theorem chunkRanges_sum {C : Nat} (hC : 0 < C) :
    ∀ fuel d T, T - d ≤ fuel * C → sumLens (chunkRanges fuel d T C) = T - d := by
  intro fuel
  induction fuel with
  | zero =>
    intro d T hfuel
    simp only [Nat.zero_mul, Nat.le_zero] at hfuel
    simp [chunkRanges, sumLens]
    omega
  | succ n ih =>
    intro d T hfuel
    rw [Nat.succ_mul] at hfuel
    rw [chunkRanges]
    by_cases h : d < T
    · rw [if_pos h]
      have hrec := ih (min (d + C - 1) (T - 1) + 1) T (by omega)
      simp only [sumLens, List.map_cons, List.sum_cons] at hrec ⊢
      rw [hrec]
      omega
    · rw [if_neg h]
      simp [sumLens]
      omega

/-- The computed range list does not depend on the fuel, once the fuel's
iterations can cover the remaining bytes. -/
theorem chunkRanges_congr {C : Nat} (hC : 0 < C) :
    ∀ f1 f2 d T, T - d ≤ f1 * C → T - d ≤ f2 * C →
      chunkRanges f1 d T C = chunkRanges f2 d T C := by
  intro f1
  induction f1 with
  | zero =>
    intro f2 d T h1 h2
    simp only [Nat.zero_mul, Nat.le_zero] at h1
    cases f2 with
    | zero => rfl
    | succ m =>
      rw [chunkRanges, chunkRanges, if_neg (by omega)]
  | succ n ih =>
    intro f2 d T h1 h2
    rw [Nat.succ_mul] at h1
    cases f2 with
    | zero =>
      simp only [Nat.zero_mul, Nat.le_zero] at h2
      rw [chunkRanges, chunkRanges, if_neg (by omega)]
    | succ m =>
      rw [Nat.succ_mul] at h2
      rw [chunkRanges, chunkRanges]
      by_cases h : d < T
      · rw [if_pos h, if_pos h]
        have := ih m (min (d + C - 1) (T - 1) + 1) T (by omega) (by omega)
        rw [this]
      · rw [if_neg h, if_neg h]

/-! ### Helper lemmas about `runLoop` -/

/-- The chunk loop only ever appends to the destination file and to the
request log; in particular bytes already on disk are never rewritten. -/
theorem runLoop_extends (size chunkSize : Nat) :
    ∀ (evs : List ChunkEvent) (st : LoopState), ∃ tf tr,
      (runLoop size chunkSize evs st).state.file = st.file ++ tf ∧
      (runLoop size chunkSize evs st).state.requests = st.requests ++ tr := by
  intro evs
  induction evs with
  | nil =>
    intro st
    rw [runLoop]
    split <;> exact ⟨[], [], by simp [LoopResult.state], by simp [LoopResult.state]⟩
  | cons ev evs ih =>
    intro st
    cases ev with
    | resp status body =>
      rw [runLoop]
      by_cases h : st.downloaded < size
      · rw [if_pos h]
        by_cases hok : status = 200 ∨ status = 206
        · rw [if_pos hok]
          obtain ⟨tf, tr, h1, h2⟩ := ih ⟨nextEnd size chunkSize st.downloaded + 1,
            st.file ++ body,
            st.requests ++ [(st.downloaded, nextEnd size chunkSize st.downloaded)]⟩
          exact ⟨body ++ tf, (st.downloaded, nextEnd size chunkSize st.downloaded) :: tr,
            by rw [h1]; simp, by rw [h2]; simp⟩
        · rw [if_neg hok]
          by_cases h403 : status = 403
          · rw [if_pos h403]
            obtain ⟨tf, tr, h1, h2⟩ := ih ⟨st.downloaded, st.file,
              st.requests ++ [(st.downloaded, nextEnd size chunkSize st.downloaded)]⟩
            exact ⟨tf, (st.downloaded, nextEnd size chunkSize st.downloaded) :: tr,
              by rw [h1], by rw [h2]; simp⟩
          · rw [if_neg h403]
            exact ⟨[], [(st.downloaded, nextEnd size chunkSize st.downloaded)],
              by simp [LoopResult.state], by simp [LoopResult.state]⟩
      · rw [if_neg h]
        exact ⟨[], [], by simp [LoopResult.state], by simp [LoopResult.state]⟩
    | respWriteFail status written msg =>
      rw [runLoop]
      by_cases h : st.downloaded < size
      · rw [if_pos h]
        by_cases hok : status = 200 ∨ status = 206
        · rw [if_pos hok]
          exact ⟨written, [(st.downloaded, nextEnd size chunkSize st.downloaded)],
            by simp [LoopResult.state], by simp [LoopResult.state]⟩
        · rw [if_neg hok]
          by_cases h403 : status = 403
          · rw [if_pos h403]
            obtain ⟨tf, tr, h1, h2⟩ := ih ⟨st.downloaded, st.file,
              st.requests ++ [(st.downloaded, nextEnd size chunkSize st.downloaded)]⟩
            exact ⟨tf, (st.downloaded, nextEnd size chunkSize st.downloaded) :: tr,
              by rw [h1], by rw [h2]; simp⟩
          · rw [if_neg h403]
            exact ⟨[], [(st.downloaded, nextEnd size chunkSize st.downloaded)],
              by simp [LoopResult.state], by simp [LoopResult.state]⟩
      · rw [if_neg h]
        exact ⟨[], [], by simp [LoopResult.state], by simp [LoopResult.state]⟩
    | raise msg =>
      rw [runLoop]
      by_cases h : st.downloaded < size
      · rw [if_pos h]
        exact ⟨[], [(st.downloaded, nextEnd size chunkSize st.downloaded)],
          by simp [LoopResult.state], by simp [LoopResult.state]⟩
      · rw [if_neg h]
        exact ⟨[], [], by simp [LoopResult.state], by simp [LoopResult.state]⟩

/-- On a script of pure 200/206 responses that is at least as long as the
number of remaining bytes, the chunk loop completes and its request log is
extended by exactly the ranges `chunkRanges` computes. -/
theorem runLoop_ok_trace {chunkSize : Nat} (hC : 0 < chunkSize) :
    ∀ (evs : List ChunkEvent) (size : Nat) (st : LoopState),
      evs.all ChunkEvent.okResp = true →
      size - st.downloaded ≤ evs.length * chunkSize →
      ∃ st', runLoop size chunkSize evs st = .completed st' ∧
        st'.requests = st.requests ++
          chunkRanges evs.length st.downloaded size chunkSize := by
  intro evs
  induction evs with
  | nil =>
    intro size st _ hlen
    simp only [List.length_nil, Nat.zero_mul, Nat.le_zero] at hlen
    rw [runLoop, if_neg (by omega)]
    exact ⟨st, rfl, by simp [chunkRanges]⟩
  | cons ev evs ih =>
    intro size st hall hlen
    simp only [List.all_cons, Bool.and_eq_true] at hall
    obtain ⟨hok, hall⟩ := hall
    cases ev with
    | resp status body =>
      simp only [ChunkEvent.okResp, Bool.or_eq_true, beq_iff_eq] at hok
      rw [runLoop]
      by_cases h : st.downloaded < size
      · rw [if_pos h, if_pos hok]
        obtain ⟨st', hrun, hreq⟩ := ih size
          ⟨nextEnd size chunkSize st.downloaded + 1, st.file ++ body,
            st.requests ++ [(st.downloaded, nextEnd size chunkSize st.downloaded)]⟩
          hall
          (by
            simp only [List.length_cons, Nat.succ_mul] at hlen ⊢
            unfold nextEnd
            omega)
        refine ⟨st', hrun, ?_⟩
        rw [hreq]
        simp only [List.length_cons]
        rw [chunkRanges, if_pos h]
        simp [nextEnd, List.append_assoc]
      · rw [if_neg h]
        refine ⟨st, rfl, ?_⟩
        simp only [List.length_cons]
        rw [chunkRanges, if_neg h]
        simp
    | respWriteFail status written msg => simp [ChunkEvent.okResp] at hok
    | raise msg => simp [ChunkEvent.okResp] at hok

/-! ### Claim theorems -/

/-- C1: for every total size `T > 0`, chunk size `C > 0` and resume offset
`d0 < T`, the chunk loop issues ranged requests whose ranges are exactly
`[d, min (d + C - 1) (T - 1)]` for `d = d0, d0 + C, ...`: every range has
`start ≤ end < T` and `end = min (start + C - 1) (T - 1)`, successive
ranges are contiguous (hence non-overlapping), the range lengths sum to
exactly `T - d0`, and a 10 MiB file fetched in 4 MiB chunks from offset 0
yields exactly the three requests `[0, 4194303]`, `[4194304, 8388607]`,
`[8388608, 10485759]`. -/
theorem C1_chunk_loop_ranges (T C d0 : Nat) (hC : 0 < C) (_hd0 : d0 < T) :
    (∀ p ∈ chunkRanges (T - d0) d0 T C,
      d0 ≤ p.1 ∧ p.1 ≤ p.2 ∧ p.2 < T ∧ p.2 = min (p.1 + C - 1) (T - 1)) ∧
    List.Chain' (fun a b : Nat × Nat => b.1 = a.2 + 1) (chunkRanges (T - d0) d0 T C) ∧
    sumLens (chunkRanges (T - d0) d0 T C) = T - d0 ∧
    (∀ (evs : List ChunkEvent) (f : List Nat) (r : List (Nat × Nat)),
      evs.all ChunkEvent.okResp = true → T - d0 ≤ evs.length * C →
      ∃ st', runLoop T C evs ⟨d0, f, r⟩ = LoopResult.completed st' ∧
        st'.requests = r ++ chunkRanges (T - d0) d0 T C) ∧
    runLoop 10485760 4194304 (List.replicate 3 (ChunkEvent.resp 206 [])) ⟨0, [], []⟩
      = LoopResult.completed ⟨10485760, [],
          [(0, 4194303), (4194304, 8388607), (8388608, 10485759)]⟩ := by
  have hfuel : T - d0 ≤ (T - d0) * C := by
    simpa using Nat.mul_le_mul_left (T - d0) hC
  refine ⟨fun p hp => chunkRanges_bounds hC _ _ _ p hp,
    chunkRanges_chain _ _ _ _,
    chunkRanges_sum hC _ _ _ hfuel,
    ?_, by decide⟩
  intro evs f r hall hlen
  obtain ⟨st', h1, h2⟩ := runLoop_ok_trace hC evs T ⟨d0, f, r⟩ hall hlen
  refine ⟨st', h1, ?_⟩
  rw [h2, chunkRanges_congr hC evs.length (T - d0) d0 T hlen hfuel]

/-- Witness for C1 at `T = 10485760`, `C = 4194304`, `d0 = 0`. -/
theorem C1_chunk_loop_ranges_witness :
    0 < 4194304 ∧ (0 : Nat) < 10485760 ∧
    sumLens (chunkRanges (10485760 - 0) 0 10485760 4194304) = 10485760 - 0 := by
  exact ⟨by decide, by decide,
    (C1_chunk_loop_ranges 10485760 4194304 0 (by decide) (by decide)).2.2.1⟩

/-- C4: a run of 403 responses followed by a 200/206 success makes the
chunk loop reissue the identical byte range once per 403 without advancing
the `downloaded` counter (the state the loop continues from still has
`downloaded = d` throughout the 403s, and every logged request is the same
`(d, end)` pair), and after the success the loop continues with
`downloaded = end + 1` and the body appended; the 403 run may have any
finite length, i.e. retries are unbounded. -/
theorem C4_forbidden_retries_same_range (size C : Nat) :
    ∀ (evs403 : List ChunkEvent) (body : List Nat) (rest : List ChunkEvent)
      (d : Nat) (f : List Nat) (r : List (Nat × Nat)),
      d < size → evs403.all ChunkEvent.is403 = true →
      runLoop size C (evs403 ++ ChunkEvent.resp 206 body :: rest) ⟨d, f, r⟩
        = runLoop size C rest
            ⟨nextEnd size C d + 1, f ++ body,
              r ++ List.replicate (evs403.length + 1) (d, nextEnd size C d)⟩ := by
  intro evs403
  induction evs403 with
  | nil =>
    intro body rest d f r hd _
    simp only [List.nil_append, List.length_nil]
    rw [runLoop, if_pos hd, if_pos (Or.inr rfl)]
    rfl
  | cons ev evs ih =>
    intro body rest d f r hd hall
    simp only [List.all_cons, Bool.and_eq_true] at hall
    obtain ⟨h403, hall⟩ := hall
    cases ev with
    | resp status b =>
      simp only [ChunkEvent.is403, beq_iff_eq] at h403
      subst h403
      simp only [List.cons_append]
      rw [runLoop, if_pos hd, if_neg (by decide), if_pos rfl]
      rw [ih body rest d f (r ++ [(d, nextEnd size C d)]) hd hall]
      have hl : (r ++ [(d, nextEnd size C d)]) ++
            List.replicate (evs.length + 1) (d, nextEnd size C d)
          = r ++ List.replicate ((ChunkEvent.resp 403 b :: evs).length + 1)
              (d, nextEnd size C d) := by
        simp [List.replicate_succ, List.append_assoc]
      rw [hl]
    | respWriteFail status w m => simp [ChunkEvent.is403] at h403
    | raise m => simp [ChunkEvent.is403] at h403

/-- Witness for C4: two 403 responses on a 10-byte file with 4-byte chunks
at offset 4, then a 206. -/
theorem C4_forbidden_retries_same_range_witness :
    (4 : Nat) < 10 ∧
    ([ChunkEvent.resp 403 [], ChunkEvent.resp 403 []].all ChunkEvent.is403 = true) ∧
    runLoop 10 4 ([ChunkEvent.resp 403 [], ChunkEvent.resp 403 []] ++
        ChunkEvent.resp 206 [5, 5, 5, 5] :: [])
        ⟨4, [1, 1, 1, 1], []⟩
      = runLoop 10 4 []
          ⟨nextEnd 10 4 4 + 1, [1, 1, 1, 1] ++ [5, 5, 5, 5],
            [] ++ List.replicate ([ChunkEvent.resp 403 [],
              ChunkEvent.resp 403 []].length + 1) (4, nextEnd 10 4 4)⟩ := by
  exact ⟨by decide, by decide,
    C4_forbidden_retries_same_range 10 4
      [ChunkEvent.resp 403 [], ChunkEvent.resp 403 []] [5, 5, 5, 5] [] 4
      [1, 1, 1, 1] [] (by decide) (by decide)⟩

/-- C2: with a pre-existing partial file of size `0 < k < total`, the
chunked download opens the destination in append mode, its first ranged
request starts at byte `k` (the requests are exactly the ranges computed
from offset `k`), the pre-existing first `k` bytes of the file are
unchanged by the whole chunked download, and no fallback runs; an empty
pre-existing file (`k = 0`) instead yields create-truncate mode. -/
theorem C2_resume_preserves_existing_bytes (T C k : Nat) (initFile : List Nat)
    (env : ResumeEnv) (headers cookies : List (String × String))
    (hk : 0 < k) (hkT : k < T) (hC : 0 < C) (hlen : initFile.length = k)
    (hprobe : env.probe = Except.ok T)
    (hall : env.events.all ChunkEvent.okResp = true)
    (hcover : T - k ≤ env.events.length * C) :
    (downloadWithResume env initFile C headers cookies).map ResumeOutcome.success
      = some true ∧
    (downloadWithResume env initFile C headers cookies).map ResumeOutcome.mode
      = some (some FileMode.append) ∧
    (downloadWithResume env initFile C headers cookies).map ResumeOutcome.chunkRequests
      = some (chunkRanges (T - k) k T C) ∧
    (downloadWithResume env initFile C headers cookies).map
        (fun o => o.chunkRequests.head?)
      = some (some (k, min (k + C - 1) (T - 1))) ∧
    (downloadWithResume env initFile C headers cookies).map (fun o => o.file.take k)
      = some initFile ∧
    (downloadWithResume env initFile C headers cookies).map ResumeOutcome.fallbackRuns
      = some 0 ∧
    (∀ env' h' c' out', env'.probe = Except.ok T →
      downloadWithResume env' [] C h' c' = some out' →
      out'.mode = some FileMode.truncate) := by
  have hpos : initFile.length > 0 := by omega
  have hcov' : T - initFile.length ≤ env.events.length * C := by rw [hlen]; exact hcover
  obtain ⟨st', hrun, hreq⟩ :=
    runLoop_ok_trace hC env.events T ⟨initFile.length, initFile, []⟩ hall hcov'
  obtain ⟨tf, tr, hfile, -⟩ :=
    runLoop_extends T C env.events ⟨initFile.length, initFile, []⟩
  rw [hrun] at hfile
  simp only [LoopResult.state] at hfile
  have hD : downloadWithResume env initFile C headers cookies
      = some ⟨true, st'.file, st'.requests, 0, none, some FileMode.append⟩ := by
    simp only [downloadWithResume, hprobe, resumeState]
    rw [hrun]
    simp [hpos]
  have hfuelTk : T - k ≤ (T - k) * C := by
    simpa using Nat.mul_le_mul_left (T - k) hC
  have hreq' : st'.requests = chunkRanges (T - k) k T C := by
    rw [hreq, List.nil_append, hlen,
      chunkRanges_congr hC env.events.length (T - k) k T hcover hfuelTk]
  obtain ⟨m, hm⟩ : ∃ m, T - k = m + 1 := ⟨T - k - 1, by omega⟩
  refine ⟨by rw [hD]; rfl, by rw [hD]; rfl,
    by rw [hD]; simp only [Option.map_some']; rw [hreq'],
    ?_, ?_, by rw [hD]; rfl, ?_⟩
  · rw [hD]
    simp only [Option.map_some']
    rw [hreq', hm, chunkRanges, if_pos hkT]
    rfl
  · rw [hD]
    simp only [Option.map_some']
    rw [hfile, ← hlen, List.take_left]
  · intro env' h' c' out' hprobe' hout'
    simp only [downloadWithResume, hprobe'] at hout'
    split at hout'
    · simp only [Option.some_inj] at hout'
      rw [← hout']
      simp [resumeState]
    · simp only [Option.some_inj] at hout'
      rw [← hout']
      simp [resumeState]
    · simp only [Option.some_inj] at hout'
      rw [← hout']
      simp [resumeState]
    · simp at hout'

/-- Witness for C2 at `T = 10`, `C = 4`, `k = 4`, a 4-byte pre-existing
file and two 206 responses. -/
theorem C2_resume_preserves_existing_bytes_witness :
    (downloadWithResume ⟨Except.ok 10,
        [ChunkEvent.resp 206 [2, 2, 2, 2], ChunkEvent.resp 206 [3, 3]],
        FallbackEvent.ok []⟩ [1, 1, 1, 1] 4 [] []).map ResumeOutcome.mode
      = some (some FileMode.append) ∧
    (downloadWithResume ⟨Except.ok 10,
        [ChunkEvent.resp 206 [2, 2, 2, 2], ChunkEvent.resp 206 [3, 3]],
        FallbackEvent.ok []⟩ [1, 1, 1, 1] 4 [] []).map (fun o => o.file.take 4)
      = some [1, 1, 1, 1] := by
  have h := C2_resume_preserves_existing_bytes 10 4 4 [1, 1, 1, 1]
    ⟨Except.ok 10, [ChunkEvent.resp 206 [2, 2, 2, 2], ChunkEvent.resp 206 [3, 3]],
      FallbackEvent.ok []⟩ [] []
    (by decide) (by decide) (by decide) (by decide) (by decide) (by decide) (by decide)
  exact ⟨h.2.1, h.2.2.2.2.1⟩

/-- C6: a ranged request answered with a status other than 200, 206 or 403
makes the chunk loop return `False` at once (one request logged, state
otherwise unchanged, the rest of the script never consulted); the caller
`_download_with_resume` then reports failure without invoking the fallback
fetcher (`fallbackRuns = 0`), and the public `download` returns
`(False, "", "Download failed")`. -/
theorem C6_fatal_status_aborts_without_fallback (size C : Nat) :
    (∀ (status : Nat) (body : List Nat) (rest : List ChunkEvent)
      (d : Nat) (f : List Nat) (r : List (Nat × Nat)),
      d < size → status ≠ 200 → status ≠ 206 → status ≠ 403 →
      runLoop size C (ChunkEvent.resp status body :: rest) ⟨d, f, r⟩
        = LoopResult.failed ⟨d, f, r ++ [(d, nextEnd size C d)]⟩) ∧
    (∀ (env : ResumeEnv) (initFile : List Nat)
      (headers cookies : List (String × String)) (T : Nat) (st' : LoopState),
      env.probe = Except.ok T →
      runLoop T C env.events ⟨initFile.length, initFile, []⟩ = LoopResult.failed st' →
      downloadWithResume env initFile C headers cookies
        = some ⟨false, st'.file, st'.requests, 0, none, some (resumeState initFile).2⟩) ∧
    (∀ (noAuth : Bool) (env : DownloadEnv) (initFile : List Nat)
      (onm : Option String) (ft : FileType) (ts dir : String) (fx : Bool)
      (T : Nat) (st' : LoopState) (hs cs : List (String × String)) (rh rc : Bool),
      env.makedirsError = none →
      prepareAuth noAuth env.headersFile env.cookiesFile = Except.ok (hs, cs, rh, rc) →
      env.resume.probe = Except.ok T →
      runLoop T C env.resume.events ⟨initFile.length, initFile, []⟩
        = LoopResult.failed st' →
      pyDownload noAuth env initFile onm ft ts dir fx C
        = some ⟨(false, "", "Download failed"), 0, rh, rc, hs, cs⟩) := by
  have h1 : ∀ (status : Nat) (body : List Nat) (rest : List ChunkEvent)
      (d : Nat) (f : List Nat) (r : List (Nat × Nat)),
      d < size → status ≠ 200 → status ≠ 206 → status ≠ 403 →
      runLoop size C (ChunkEvent.resp status body :: rest) ⟨d, f, r⟩
        = LoopResult.failed ⟨d, f, r ++ [(d, nextEnd size C d)]⟩ := by
    intro status body rest d f r hd hne1 hne2 hne3
    rw [runLoop, if_pos hd, if_neg (by omega), if_neg hne3]
  have h2 : ∀ (env : ResumeEnv) (initFile : List Nat)
      (headers cookies : List (String × String)) (T : Nat) (st' : LoopState),
      env.probe = Except.ok T →
      runLoop T C env.events ⟨initFile.length, initFile, []⟩ = LoopResult.failed st' →
      downloadWithResume env initFile C headers cookies
        = some ⟨false, st'.file, st'.requests, 0, none, some (resumeState initFile).2⟩ := by
    intro env initFile headers cookies T st' hprobe hrun
    simp only [downloadWithResume, hprobe, resumeState]
    rw [hrun]
  refine ⟨h1, h2, ?_⟩
  intro noAuth env initFile onm ft ts dir fx T st' hs cs rh rc hmk hauth hprobe hrun
  simp only [pyDownload, hmk, hauth]
  rw [h2 env.resume initFile hs cs T st' hprobe hrun]
  rfl

/-- Witness for C6: a 500 response at offset 0 of a 10-byte file, reaching
the public interface with `no_auth = True`. -/
theorem C6_fatal_status_aborts_without_fallback_witness :
    pyDownload true ⟨none, none, none,
        ⟨Except.ok 10, [ChunkEvent.resp 500 []], FallbackEvent.ok []⟩⟩
        [] none FileType.audio "t" "d" false 4
      = some ⟨(false, "", "Download failed"), 0, false, false,
          [("User-Agent", "Mozilla/5.0")], []⟩ := by
  exact (C6_fatal_status_aborts_without_fallback 10 4).2.2 true
    ⟨none, none, none, ⟨Except.ok 10, [ChunkEvent.resp 500 []], FallbackEvent.ok []⟩⟩
    [] none FileType.audio "t" "d" false 10 ⟨0, [], [(0, 3)]⟩
    [("User-Agent", "Mozilla/5.0")] [] false false
    rfl (by decide) rfl (by decide)

/-- C7: an IOError raised by `f.write` while streaming a chunk body makes
the loop raise immediately with the partial write appended and the
`downloaded` counter unchanged: no further request is issued (the result
does not depend on the remaining script) and the failed write is not
retried; the exception propagates to `_download_with_resume`, whose
handler runs the fallback exactly once. -/
theorem C7_write_ioerror_propagates (size C : Nat) :
    (∀ (status : Nat) (written : List Nat) (msg : String)
      (rest : List ChunkEvent) (d : Nat) (f : List Nat) (r : List (Nat × Nat)),
      d < size → (status = 200 ∨ status = 206) →
      runLoop size C (ChunkEvent.respWriteFail status written msg :: rest) ⟨d, f, r⟩
        = LoopResult.raised msg ⟨d, f ++ written, r ++ [(d, nextEnd size C d)]⟩) ∧
    (∀ (env : ResumeEnv) (initFile : List Nat)
      (headers cookies : List (String × String)) (T : Nat) (m : String)
      (st' : LoopState),
      env.probe = Except.ok T →
      runLoop T C env.events ⟨initFile.length, initFile, []⟩
        = LoopResult.raised m st' →
      (downloadWithResume env initFile C headers cookies).map
          ResumeOutcome.fallbackRuns = some 1) := by
  constructor
  · intro status written msg rest d f r hd hok
    rw [runLoop, if_pos hd, if_pos hok]
  · intro env initFile headers cookies T m st' hprobe hrun
    simp only [downloadWithResume, hprobe, resumeState]
    rw [hrun]
    rfl

/-- Witness for C7: an IOError (disk full) interrupting the very first
chunk write, with one further scripted response that is never consulted. -/
theorem C7_write_ioerror_propagates_witness :
    (0 : Nat) < 10 ∧ ((206 : Nat) = 200 ∨ (206 : Nat) = 206) ∧
    runLoop 10 4 (ChunkEvent.respWriteFail 206 [9] "disk full" ::
        [ChunkEvent.resp 206 []]) ⟨0, [], []⟩
      = LoopResult.raised "disk full" ⟨0, [] ++ [9], [] ++ [(0, nextEnd 10 4 0)]⟩ := by
  exact ⟨by decide, Or.inr rfl,
    (C7_write_ioerror_propagates 10 4).1 206 [9] "disk full"
      [ChunkEvent.resp 206 []] 0 [] [] (by decide) (Or.inr rfl)⟩

/-! ### Helper lemmas about the public `download` assembly -/

/-- A message built by the broad handler of line 129-134 is never empty. -/
theorem download_error_msg_ne_empty (m : String) :
    ("Download error: " ++ m) ≠ "" := by
  intro h
  have hlen := congrArg String.length h
  rw [String.length_append] at hlen
  have h16 : ("Download error: " : String).length = 16 := rfl
  have h0 : ("" : String).length = 0 := rfl
  rw [h16, h0] at hlen
  omega

/-- `download` when `os.makedirs` raises. -/
theorem pyDownload_makedirs_error {env : DownloadEnv} {msg : String}
    (hmk : env.makedirsError = some msg)
    (noAuth : Bool) (initFile : List Nat) (onm : Option String) (ft : FileType)
    (ts dir : String) (fx : Bool) (C : Nat) :
    pyDownload noAuth env initFile onm ft ts dir fx C
      = some ⟨(false, "", "Download error: " ++ msg), 0, false, false, [], []⟩ := by
  simp only [pyDownload, hmk]

/-- `download` when reading an override file raises. -/
theorem pyDownload_auth_error {env : DownloadEnv} {noAuth : Bool} {msg : String}
    {rh rc : Bool} (hmk : env.makedirsError = none)
    (hauth : prepareAuth noAuth env.headersFile env.cookiesFile
      = Except.error (msg, rh, rc))
    (initFile : List Nat) (onm : Option String) (ft : FileType)
    (ts dir : String) (fx : Bool) (C : Nat) :
    pyDownload noAuth env initFile onm ft ts dir fx C
      = some ⟨(false, "", "Download error: " ++ msg), 0, rh, rc, [], []⟩ := by
  simp only [pyDownload, hmk, hauth]

/-- `download` when `_download_with_resume` reports failure (line 110-111). -/
theorem pyDownload_run_failure {env : DownloadEnv} {noAuth : Bool}
    {hs cs : List (String × String)} {rh rc : Bool} {initFile : List Nat}
    {C : Nat} {r : ResumeOutcome}
    (hmk : env.makedirsError = none)
    (hauth : prepareAuth noAuth env.headersFile env.cookiesFile
      = Except.ok (hs, cs, rh, rc))
    (hr : downloadWithResume env.resume initFile C hs cs = some r)
    (hsucc : r.success = false)
    (onm : Option String) (ft : FileType) (ts dir : String) (fx : Bool) :
    pyDownload noAuth env initFile onm ft ts dir fx C
      = some ⟨(false, "", "Download failed"), r.fallbackRuns, rh, rc, hs, cs⟩ := by
  simp only [pyDownload, hmk, hauth, hr, hsucc]
  rfl

/-- `download` when `_download_with_resume` reports success: some path and
message, always with `success = True` and the prepared headers/cookies. -/
theorem pyDownload_run_success {env : DownloadEnv} {noAuth : Bool}
    {hs cs : List (String × String)} {rh rc : Bool} {initFile : List Nat}
    {C : Nat} {r : ResumeOutcome}
    (hmk : env.makedirsError = none)
    (hauth : prepareAuth noAuth env.headersFile env.cookiesFile
      = Except.ok (hs, cs, rh, rc))
    (hr : downloadWithResume env.resume initFile C hs cs = some r)
    (hsucc : r.success = true)
    (onm : Option String) (ft : FileType) (ts dir : String) (fx : Bool) :
    ∃ path message, pyDownload noAuth env initFile onm ft ts dir fx C
      = some ⟨(true, path, message), r.fallbackRuns, rh, rc, hs, cs⟩ := by
  simp only [pyDownload, hmk, hauth, hr, hsucc]
  cases ft with
  | video =>
    cases fx with
    | true => exact ⟨_, _, rfl⟩
    | false => exact ⟨_, _, rfl⟩
  | audio => exact ⟨_, _, rfl⟩

/-- How often `_download_with_resume` runs the fallback: exactly once when
the chunked path raised, never otherwise; and a failing fallback makes the
whole call report failure. -/
theorem downloadWithResume_fallback_count (env : ResumeEnv) (initFile : List Nat)
    (C : Nat) (headers cookies : List (String × String)) (out : ResumeOutcome)
    (hout : downloadWithResume env initFile C headers cookies = some out) :
    (env.chunkPathRaises initFile C → out.fallbackRuns = 1 ∧
      (env.fallback.fails = true → out.success = false)) ∧
    (¬ env.chunkPathRaises initFile C → out.fallbackRuns = 0) := by
  cases hp : env.probe with
  | error m =>
    simp only [downloadWithResume, hp] at hout
    simp only [Option.some_inj] at hout
    subst hout
    constructor
    · intro _
      refine ⟨rfl, ?_⟩
      intro hfails
      cases hfb : env.fallback <;>
        simp [downloadFallback, FallbackEvent.fails, hfb] at hfails ⊢
    · intro hn
      exact absurd (Or.inl ⟨m, hp⟩) hn
  | ok T =>
    simp only [downloadWithResume, hp, resumeState] at hout
    cases hr : runLoop T C env.events ⟨initFile.length, initFile, []⟩ with
    | completed st =>
      rw [hr] at hout
      simp only [Option.some_inj] at hout
      subst hout
      constructor
      · intro hraise
        rcases hraise with ⟨m, hpe⟩ | ⟨T', m, st', hpe, hrun'⟩
        · rw [hp] at hpe; exact absurd hpe (by simp)
        · rw [hp] at hpe
          injection hpe with hT
          subst hT
          rw [hr] at hrun'
          exact absurd hrun' (by simp)
      · intro _; rfl
    | failed st =>
      rw [hr] at hout
      simp only [Option.some_inj] at hout
      subst hout
      constructor
      · intro hraise
        rcases hraise with ⟨m, hpe⟩ | ⟨T', m, st', hpe, hrun'⟩
        · rw [hp] at hpe; exact absurd hpe (by simp)
        · rw [hp] at hpe
          injection hpe with hT
          subst hT
          rw [hr] at hrun'
          exact absurd hrun' (by simp)
      · intro _; rfl
    | raised m st =>
      rw [hr] at hout
      simp only [Option.some_inj] at hout
      subst hout
      constructor
      · intro _
        refine ⟨rfl, ?_⟩
        intro hfails
        cases hfb : env.fallback <;>
          simp [downloadFallback, FallbackEvent.fails, hfb] at hfails ⊢
      · intro hn
        exact absurd (Or.inr ⟨T, m, st, hp, hr⟩) hn
    | starved st =>
      rw [hr] at hout
      exact absurd hout (by simp)

/-- C3: every terminating run of the public `download` yields a tri-tuple:
a failing run always returns `(False, "", message)` with a nonempty
message, never an uncaught exception; when the preparation steps succeed,
an exception anywhere in the chunked path (size probe included) triggers
exactly one fallback attempt, a failing fallback then yields
`(False, "", "Download failed")`, and no fallback runs when the chunked
path does not raise. -/
theorem C3_no_uncaught_exception
    (noAuth : Bool) (env : DownloadEnv) (initFile : List Nat)
    (onm : Option String) (ft : FileType) (ts dir : String) (fx : Bool)
    (C : Nat) (out : DownloadOutcome)
    (hout : pyDownload noAuth env initFile onm ft ts dir fx C = some out) :
    (out.result.1 = false → out.result.2.1 = "" ∧ out.result.2.2 ≠ "") ∧
    (∀ hs cs rh rc, env.makedirsError = none →
      prepareAuth noAuth env.headersFile env.cookiesFile = Except.ok (hs, cs, rh, rc) →
      (env.resume.chunkPathRaises initFile C → out.fallbackRuns = 1) ∧
      (env.resume.chunkPathRaises initFile C → env.resume.fallback.fails = true →
        out.result = (false, "", "Download failed")) ∧
      (¬ env.resume.chunkPathRaises initFile C → out.fallbackRuns = 0)) := by
  cases hmk : env.makedirsError with
  | some msg =>
    rw [pyDownload_makedirs_error hmk noAuth initFile onm ft ts dir fx C] at hout
    simp only [Option.some_inj] at hout
    subst hout
    refine ⟨fun _ => ⟨rfl, download_error_msg_ne_empty msg⟩, ?_⟩
    intro hs cs rh rc hmk' _
    exact absurd hmk' (by simp)
  | none =>
    cases hpa : prepareAuth noAuth env.headersFile env.cookiesFile with
    | error e =>
      obtain ⟨msg, rh0, rc0⟩ := e
      rw [pyDownload_auth_error hmk hpa initFile onm ft ts dir fx C] at hout
      simp only [Option.some_inj] at hout
      subst hout
      refine ⟨fun _ => ⟨rfl, download_error_msg_ne_empty msg⟩, ?_⟩
      intro hs cs rh rc _ hauth'
      exact absurd hauth' (by simp)
    | ok a =>
      obtain ⟨hs0, cs0, rh0, rc0⟩ := a
      cases hdr : downloadWithResume env.resume initFile C hs0 cs0 with
      | none =>
        have hnone : pyDownload noAuth env initFile onm ft ts dir fx C = none := by
          simp only [pyDownload, hmk, hpa, hdr]
        rw [hnone] at hout
        exact absurd hout (by simp)
      | some r =>
        have hcount := downloadWithResume_fallback_count env.resume initFile C
          hs0 cs0 r hdr
        cases hsucc : r.success with
        | false =>
          rw [pyDownload_run_failure hmk hpa hdr hsucc onm ft ts dir fx] at hout
          simp only [Option.some_inj] at hout
          subst hout
          refine ⟨fun _ => ⟨rfl, show ("Download failed" : String) ≠ "" by decide⟩, ?_⟩
          intro hs cs rh rc _ _
          exact ⟨fun hraise => (hcount.1 hraise).1, fun _ _ => rfl,
            fun hn => hcount.2 hn⟩
        | true =>
          obtain ⟨path, message, hpd⟩ :=
            pyDownload_run_success hmk hpa hdr hsucc onm ft ts dir fx
          rw [hpd] at hout
          simp only [Option.some_inj] at hout
          subst hout
          refine ⟨fun hfalse => by simp at hfalse, ?_⟩
          intro hs cs rh rc _ _
          refine ⟨fun hraise => (hcount.1 hraise).1, ?_, fun hn => hcount.2 hn⟩
          intro hraise hfails
          have hcontra := (hcount.1 hraise).2 hfails
          rw [hsucc] at hcontra
          exact absurd hcontra (by simp)

/-- Witness for C3: size probe raises, fallback GET also raises; the run
reports `(False, "", "Download failed")` after exactly one fallback
attempt. -/
theorem C3_no_uncaught_exception_witness :
    (⟨(false, "", "Download failed"), 1, false, false,
        [("User-Agent", "Mozilla/5.0")], []⟩ : DownloadOutcome).fallbackRuns = 1 ∧
    (⟨(false, "", "Download failed"), 1, false, false,
        [("User-Agent", "Mozilla/5.0")], []⟩ : DownloadOutcome).result
      = (false, "", "Download failed") := by
  have h := C3_no_uncaught_exception true
    ⟨none, none, none, ⟨Except.error "probe boom", [], FallbackEvent.getExn "net down"⟩⟩
    [] none FileType.audio "t" "d" false 8
    ⟨(false, "", "Download failed"), 1, false, false,
      [("User-Agent", "Mozilla/5.0")], []⟩ (by decide)
  have h2 := h.2 [("User-Agent", "Mozilla/5.0")] [] false false rfl (by decide)
  exact ⟨h2.1 (Or.inl ⟨"probe boom", rfl⟩), h2.2.1 (Or.inl ⟨"probe boom", rfl⟩) rfl⟩

/-- C8: every invocation of the fallback fetcher issues exactly one GET
carrying the caller's headers and cookies and no Range header; on success
the destination file becomes exactly the response body, discarding any
prior partial content (truncation); any failure is reported as `False`
with no retry; and a failed size probe makes `_download_with_resume` run
the fallback exactly once, with no ranged chunk requests at all. -/
theorem C8_fallback_one_unranged_get
    (headers cookies : List (String × String)) (ev : FallbackEvent)
    (initFile : List Nat) :
    (downloadFallback headers cookies ev initFile).request
      = ⟨headers, cookies, none⟩ ∧
    (∀ body, ev = FallbackEvent.ok body →
      downloadFallback headers cookies ev initFile
        = ⟨true, body, ⟨headers, cookies, none⟩⟩) ∧
    (ev.fails = true →
      (downloadFallback headers cookies ev initFile).success = false) ∧
    (∀ (env : ResumeEnv) (C : Nat) (m : String),
      env.fallback = ev → env.probe = Except.error m →
      downloadWithResume env initFile C headers cookies
        = some ⟨(downloadFallback headers cookies ev initFile).success,
            (downloadFallback headers cookies ev initFile).file, [], 1,
            some ⟨headers, cookies, none⟩, none⟩) := by
  refine ⟨by cases ev <;> rfl, ?_, ?_, ?_⟩
  · intro body hb
    subst hb
    rfl
  · intro hfails
    cases ev with
    | ok body => simp [FallbackEvent.fails] at hfails
    | getExn m => rfl
    | streamExn w m => rfl
  · intro env C m hfb hp
    simp only [downloadWithResume, hp, hfb]
    cases ev <;> rfl

/-- Witness for C8: size probe answered with a 404 (no headers), fallback
body of two bytes, a one-byte pre-existing partial file that is replaced. -/
theorem C8_fallback_one_unranged_get_witness :
    downloadWithResume ⟨Except.error "404", [], FallbackEvent.ok [7, 7]⟩
        [1] 8 [("k", "v")] [("c", "w")]
      = some ⟨(downloadFallback [("k", "v")] [("c", "w")]
            (FallbackEvent.ok [7, 7]) [1]).success,
          (downloadFallback [("k", "v")] [("c", "w")]
            (FallbackEvent.ok [7, 7]) [1]).file, [], 1,
          some ⟨[("k", "v")], [("c", "w")], none⟩, none⟩ := by
  exact (C8_fallback_one_unranged_get [("k", "v")] [("c", "w")]
    (FallbackEvent.ok [7, 7]) [1]).2.2.2
    ⟨Except.error "404", [], FallbackEvent.ok [7, 7]⟩ 8 "404" rfl rfl

/-- C10: with `no_auth = True` the prepared request headers are exactly the
single mapping `User-Agent: Mozilla/5.0` and the cookies are empty, the
override file arguments are never read (`readHeadersFile` and
`readCookiesFile` stay `False`), and the whole public `download` run is
bitwise independent of whatever the override file arguments contain. -/
theorem C10_no_auth_ignores_override_files
    (env : DownloadEnv) (hf cf : Option (Except String (List (String × String))))
    (initFile : List Nat) (onm : Option String) (ft : FileType)
    (ts dir : String) (fx : Bool) (C : Nat) :
    prepareAuth true hf cf
      = Except.ok ([("User-Agent", "Mozilla/5.0")], [], false, false) ∧
    pyDownload true { env with headersFile := hf, cookiesFile := cf }
        initFile onm ft ts dir fx C
      = pyDownload true { env with headersFile := none, cookiesFile := none }
        initFile onm ft ts dir fx C ∧
    (∀ out, env.makedirsError = none →
      pyDownload true env initFile onm ft ts dir fx C = some out →
      out.headersUsed = [("User-Agent", "Mozilla/5.0")] ∧ out.cookiesUsed = [] ∧
      out.readHeadersFile = false ∧ out.readCookiesFile = false) := by
  refine ⟨rfl, rfl, ?_⟩
  intro out hmk hout
  have hauth : prepareAuth true env.headersFile env.cookiesFile
      = Except.ok ([("User-Agent", "Mozilla/5.0")], [], false, false) := rfl
  cases hdr : downloadWithResume env.resume initFile C
      [("User-Agent", "Mozilla/5.0")] [] with
  | none =>
    have hnone : pyDownload true env initFile onm ft ts dir fx C = none := by
      simp only [pyDownload, hmk, hauth, hdr]
    rw [hnone] at hout
    exact absurd hout (by simp)
  | some r =>
    cases hsucc : r.success with
    | false =>
      rw [pyDownload_run_failure hmk hauth hdr hsucc onm ft ts dir fx] at hout
      simp only [Option.some_inj] at hout
      subst hout
      exact ⟨rfl, rfl, rfl, rfl⟩
    | true =>
      obtain ⟨p, m2, hpd⟩ := pyDownload_run_success hmk hauth hdr hsucc onm ft ts dir fx
      rw [hpd] at hout
      simp only [Option.some_inj] at hout
      subst hout
      exact ⟨rfl, rfl, rfl, rfl⟩

/-- Witness for C10: override files containing a custom header and a read
error have no effect in `no_auth` mode. -/
theorem C10_no_auth_ignores_override_files_witness :
    prepareAuth true (some (Except.ok [("X", "Y")])) (some (Except.error "bad"))
      = Except.ok ([("User-Agent", "Mozilla/5.0")], [], false, false) ∧
    pyDownload true ⟨none, some (Except.ok [("X", "Y")]),
        some (Except.error "bad"), ⟨Except.error "x", [], FallbackEvent.ok []⟩⟩
        [] none FileType.audio "t" "d" false 8
      = pyDownload true ⟨none, none, none,
          ⟨Except.error "x", [], FallbackEvent.ok []⟩⟩
          [] none FileType.audio "t" "d" false 8 := by
  have h := C10_no_auth_ignores_override_files
    ⟨none, none, none, ⟨Except.error "x", [], FallbackEvent.ok []⟩⟩
    (some (Except.ok [("X", "Y")])) (some (Except.error "bad"))
    [] none FileType.audio "t" "d" false 8
  exact ⟨h.1, h.2.1⟩

/-! ### Helper lemmas about the size probe's header parsing -/

/-- Python's `split` never returns an empty list. -/
theorem splitOnSlash_ne_nil : ∀ s : List Char, splitOnSlash s ≠ [] := by
  intro s
  cases s with
  | nil => simp [splitOnSlash]
  | cons c cs =>
    rw [splitOnSlash]
    cases splitOnSlash cs with
    | nil => simp
    | cons h t =>
      dsimp only
      by_cases hc : c = '/'
      · rw [if_pos hc]; simp
      · rw [if_neg hc]; simp

/-- Splitting a string that contains no `'/'` yields that string alone. -/
theorem splitOnSlash_no_slash : ∀ s : List Char, '/' ∉ s → splitOnSlash s = [s] := by
  intro s
  induction s with
  | nil => intro _; rfl
  | cons c cs ih =>
    intro hmem
    have hc : c ≠ '/' := fun h => hmem (by rw [h]; exact List.mem_cons_self _ _)
    have hcs : '/' ∉ cs := fun h => hmem (List.mem_cons_of_mem _ h)
    rw [splitOnSlash, ih hcs]
    dsimp only
    rw [if_neg hc]

/-- Splitting a string that contains a `'/'` yields at least two parts. -/
theorem splitOnSlash_length_ge_two :
    ∀ s : List Char, '/' ∈ s → 2 ≤ (splitOnSlash s).length := by
  intro s
  induction s with
  | nil => intro h; simp at h
  | cons c cs ih =>
    intro hmem
    rw [splitOnSlash]
    cases hr : splitOnSlash cs with
    | nil => exact absurd hr (splitOnSlash_ne_nil cs)
    | cons h t =>
      dsimp only
      by_cases hc : c = '/'
      · rw [if_pos hc]
        simp
      · rw [if_neg hc]
        have hcs : '/' ∈ cs := by
          rcases List.mem_cons.mp hmem with h1 | h1
          · exact absurd h1.symm hc
          · exact h1
        have hlen := ih hcs
        rw [hr] at hlen
        simpa using hlen

/-- The default value of `getLastD` is irrelevant on a nonempty list. -/
theorem getLastD_default_irrel {α : Type} :
    ∀ (l : List α) (d1 d2 : α), l ≠ [] → l.getLastD d1 = l.getLastD d2 := by
  intro l
  induction l with
  | nil => intro d1 d2 h; exact absurd rfl h
  | cons a l ih =>
    intro d1 d2 _
    rw [List.getLastD_cons, List.getLastD_cons]

/-- The last `'/'`-separated component of `pre ++ "/" ++ ds` is `ds`
whenever `ds` itself contains no `'/'` (this is what
`cr.split("/")[-1]` extracts from a `Content-Range` value). -/
theorem splitOnSlash_last :
    ∀ (pre ds : List Char), '/' ∉ ds →
      (splitOnSlash (pre ++ '/' :: ds)).getLastD [] = ds := by
  intro pre
  induction pre with
  | nil =>
    intro ds hds
    simp only [List.nil_append]
    rw [splitOnSlash, splitOnSlash_no_slash ds hds]
    dsimp only
    rw [if_pos rfl, List.getLastD_cons, List.getLastD_cons]
    rfl
  | cons p pre ih =>
    intro ds hds
    simp only [List.cons_append]
    rw [splitOnSlash]
    cases hr : splitOnSlash (pre ++ '/' :: ds) with
    | nil => exact absurd hr (splitOnSlash_ne_nil _)
    | cons h t =>
      dsimp only
      have hlast : (h :: t).getLastD [] = ds := by rw [← hr]; exact ih ds hds
      have hlen : 2 ≤ (splitOnSlash (pre ++ '/' :: ds)).length :=
        splitOnSlash_length_ge_two _ (by simp)
      rw [hr] at hlen
      have ht : t ≠ [] := by
        intro hteq
        rw [hteq] at hlen
        simp at hlen
      by_cases hp : p = '/'
      · rw [if_pos hp, List.getLastD_cons]
        rw [List.getLastD_cons] at hlast
        rw [List.getLastD_cons]
        exact hlast
      · rw [if_neg hp, List.getLastD_cons]
        rw [List.getLastD_cons] at hlast
        rw [getLastD_default_irrel t (p :: h) h ht]
        exact hlast

/-- C5: the size probe sends one GET with `Range: bytes=0-`; on status 200
or 206 with a `Content-Range` header it returns the integer after the
final `/` of that value — which is exactly what it returns when only a
`Content-Length` with the same digits is present — and in every other
case (other status, or neither header) it raises instead of returning a
size; concretely both header shapes yield `104857600`. -/
theorem C5_size_probe_header_parsing :
    (∀ headers cookies, probeRequest headers cookies
      = ⟨headers, cookies, some (0, none)⟩) ∧
    (∀ status cr cl, status ≠ 200 → status ≠ 206 →
      getFileSize ⟨status, cr, cl⟩ = Except.error "Could not determine file size") ∧
    (∀ status, getFileSize ⟨status, none, none⟩
      = Except.error "Could not determine file size") ∧
    (∀ status pre ds cl, (status = 200 ∨ status = 206) → '/' ∉ ds →
      getFileSize ⟨status, some (pre ++ '/' :: ds), cl⟩
        = getFileSize ⟨status, none, some ds⟩) ∧
    (getFileSize ⟨206, some (String.toList "bytes 0-104857599/104857600"), none⟩
        = Except.ok 104857600 ∧
      getFileSize ⟨200, none, some (String.toList "104857600")⟩
        = Except.ok 104857600) := by
  refine ⟨fun headers cookies => rfl, ?_, ?_, ?_, by decide, by decide⟩
  · intro status cr cl hne1 hne2
    simp only [getFileSize]
    rw [if_neg (by omega)]
  · intro status
    simp only [getFileSize]
    by_cases h : status = 200 ∨ status = 206
    · rw [if_pos h]
    · rw [if_neg h]
  · intro status pre ds cl hok hds
    simp only [getFileSize]
    rw [if_pos hok, if_pos hok, splitOnSlash_last pre ds hds]

/-- Witness for C5: a concrete `Content-Range` value split at its final
slash agrees with the bare `Content-Length` digits. -/
theorem C5_size_probe_header_parsing_witness :
    ((206 : Nat) = 200 ∨ (206 : Nat) = 206) ∧
    getFileSize ⟨206, some (String.toList "bytes 0-99" ++ '/' :: String.toList "100"),
        none⟩
      = getFileSize ⟨206, none, some (String.toList "100")⟩ := by
  exact ⟨Or.inr rfl,
    C5_size_probe_header_parsing.2.2.2.1 206 (String.toList "bytes 0-99")
      (String.toList "100") none (Or.inr rfl) (by decide)⟩

/-! ### Helper lemmas about strings and generated filenames -/

theorem stringDataAppend (s t : String) : (s ++ t).data = s.data ++ t.data := by
  cases s
  cases t
  rfl

theorem stringDataInj {s t : String} (h : s.data = t.data) : s = t := by
  cases s
  cases t
  exact congrArg String.mk h

/-- The first character of `a ++ t ++ b` is that of `a` when `a` is
nonempty, independently of `t`. -/
theorem appendMidHead (a t b : String) (ha : a.data ≠ []) :
    (a ++ t ++ b).data.head? = a.data.head? := by
  rw [stringDataAppend, stringDataAppend]
  rw [List.head?_append_of_ne_nil _
    (fun hcontra => ha (List.append_eq_nil.mp hcontra).1)]
  exact List.head?_append_of_ne_nil _ ha

/-- Appending different middles between the same two ends yields different
strings. -/
theorem appendMidNe (a b t1 t2 : String) (h : t1 ≠ t2) :
    a ++ t1 ++ b ≠ a ++ t2 ++ b := by
  intro he
  apply h
  have hd := congrArg String.data he
  rw [stringDataAppend, stringDataAppend, stringDataAppend, stringDataAppend] at hd
  exact stringDataInj (List.append_cancel_left (List.append_cancel_right hd))

/-- `os.path.join` with a fixed directory distinguishes distinct relative
names that agree on their first character. -/
theorem pathJoin_ne (dir n1 n2 : String) (hh : n1.data.head? = n2.data.head?)
    (hne : n1 ≠ n2) : pathJoin dir n1 ≠ pathJoin dir n2 := by
  unfold pathJoin
  by_cases h1 : n1.data.head? = some '/'
  · rw [if_pos h1, if_pos (by rw [← hh]; exact h1)]
    exact hne
  · have h1' : ¬n2.data.head? = some '/' := by rw [← hh]; exact h1
    rw [if_neg h1, if_neg h1']
    by_cases h2 : dir = "" ∨ dir.data.getLast? = some '/'
    · rw [if_pos h2, if_pos h2]
      intro he
      apply hne
      have hd := congrArg String.data he
      rw [stringDataAppend, stringDataAppend] at hd
      exact stringDataInj (List.append_cancel_left hd)
    · rw [if_neg h2, if_neg h2]
      intro he
      apply hne
      have hd := congrArg String.data he
      rw [stringDataAppend, stringDataAppend, stringDataAppend, stringDataAppend] at hd
      exact stringDataInj (List.append_cancel_left hd)

/-- With an empty request log, whatever the script does, the first ranged
request the chunk loop logs (if any) starts at the current `downloaded`
offset. -/
theorem runLoop_first_request_start (size C : Nat)
    (evs : List ChunkEvent) (st : LoopState) (hreq : st.requests = []) :
    ((runLoop size C evs st).state.requests).head? = none ∨
    ((runLoop size C evs st).state.requests).head?
      = some (st.downloaded, nextEnd size C st.downloaded) := by
  cases evs with
  | nil =>
    left
    rw [runLoop]
    split <;> simp [LoopResult.state, hreq]
  | cons ev evs =>
    by_cases hd : st.downloaded < size
    · cases ev with
      | resp status body =>
        rw [runLoop, if_pos hd]
        by_cases hok : status = 200 ∨ status = 206
        · rw [if_pos hok]
          right
          obtain ⟨tf, tr, hf, hr⟩ := runLoop_extends size C evs
            ⟨nextEnd size C st.downloaded + 1, st.file ++ body,
              st.requests ++ [(st.downloaded, nextEnd size C st.downloaded)]⟩
          rw [hr]
          dsimp only
          rw [hreq]
          simp
        · rw [if_neg hok]
          by_cases h403 : status = 403
          · rw [if_pos h403]
            right
            obtain ⟨tf, tr, hf, hr⟩ := runLoop_extends size C evs
              ⟨st.downloaded, st.file,
                st.requests ++ [(st.downloaded, nextEnd size C st.downloaded)]⟩
            rw [hr]
            dsimp only
            rw [hreq]
            simp
          · rw [if_neg h403]
            right
            simp [LoopResult.state, hreq]
      | respWriteFail status written msg =>
        rw [runLoop, if_pos hd]
        by_cases hok : status = 200 ∨ status = 206
        · rw [if_pos hok]
          right
          simp [LoopResult.state, hreq]
        · rw [if_neg hok]
          by_cases h403 : status = 403
          · rw [if_pos h403]
            right
            obtain ⟨tf, tr, hf, hr⟩ := runLoop_extends size C evs
              ⟨st.downloaded, st.file,
                st.requests ++ [(st.downloaded, nextEnd size C st.downloaded)]⟩
            rw [hr]
            dsimp only
            rw [hreq]
            simp
          · rw [if_neg h403]
            right
            simp [LoopResult.state, hreq]
      | raise msg =>
        rw [runLoop, if_pos hd]
        right
        simp [LoopResult.state, hreq]
    · left
      cases ev <;> rw [runLoop, if_neg hd] <;> simp [LoopResult.state, hreq]

/-- C9: the generated destination filename embeds the invocation timestamp
(`stem_timestamp.ext` from the URL basename, else `audio_timestamp.mp3` /
`video_timestamp.mp4`), so for a fixed URL, file type and output
directory, invocations at different timestamps write to distinct paths; a
file system whose only recorded download was made at a different timestamp
therefore shows 0 bytes at the fresh path, and a fresh (absent)
destination makes the chunked path open in create-truncate mode with its
first ranged request starting at byte 0 — resume never triggers for it. -/
theorem C9_fresh_timestamped_destination (dir : String) (onm : Option String)
    (ft : FileType) :
    (∀ nm ts, generateOutputFilename (some nm) ft ts dir
      = pathJoin dir ((splitext nm).1 ++ "_" ++ ts ++ (splitext nm).2)) ∧
    (∀ ts, generateOutputFilename none FileType.audio ts dir
      = pathJoin dir ("audio_" ++ ts ++ ".mp3")) ∧
    (∀ ts, generateOutputFilename none FileType.video ts dir
      = pathJoin dir ("video_" ++ ts ++ ".mp4")) ∧
    (∀ t1 t2, t1 ≠ t2 →
      generateOutputFilename onm ft t1 dir ≠ generateOutputFilename onm ft t2 dir) ∧
    (∀ (fs : String → Option (List Nat)) (t1 t2 : String), t1 ≠ t2 →
      (∀ p, fs p ≠ none → p = generateOutputFilename onm ft t1 dir) →
      onDiskBytes fs (generateOutputFilename onm ft t2 dir) = 0) ∧
    (∀ (env : ResumeEnv) (C : Nat) (h c : List (String × String)) (T : Nat)
      (out : ResumeOutcome), env.probe = Except.ok T →
      downloadWithResume env [] C h c = some out →
      out.mode = some FileMode.truncate ∧
      ∀ q ∈ out.chunkRequests.head?, q.1 = 0) := by
  have hinj : ∀ t1 t2, t1 ≠ t2 →
      generateOutputFilename onm ft t1 dir ≠ generateOutputFilename onm ft t2 dir := by
    intro t1 t2 hne
    cases onm with
    | some nm =>
      apply pathJoin_ne
      · have ha : ((splitext nm).1 ++ "_").data ≠ [] := by
          rw [stringDataAppend]
          simp
        rw [appendMidHead ((splitext nm).1 ++ "_") t1 (splitext nm).2 ha,
          appendMidHead ((splitext nm).1 ++ "_") t2 (splitext nm).2 ha]
      · exact appendMidNe ((splitext nm).1 ++ "_") (splitext nm).2 t1 t2 hne
    | none =>
      cases ft with
      | audio =>
        apply pathJoin_ne
        · rw [appendMidHead "audio_" t1 ".mp3" (by decide),
            appendMidHead "audio_" t2 ".mp3" (by decide)]
        · exact appendMidNe "audio_" ".mp3" t1 t2 hne
      | video =>
        apply pathJoin_ne
        · rw [appendMidHead "video_" t1 ".mp4" (by decide),
            appendMidHead "video_" t2 ".mp4" (by decide)]
        · exact appendMidNe "video_" ".mp4" t1 t2 hne
  refine ⟨fun nm ts => rfl, fun ts => rfl, fun ts => rfl, hinj, ?_, ?_⟩
  · intro fs t1 t2 hne hdom
    unfold onDiskBytes
    cases hfs : fs (generateOutputFilename onm ft t2 dir) with
    | none => rfl
    | some content =>
      exfalso
      have heq := hdom _ (by rw [hfs]; simp)
      exact hinj t1 t2 hne heq.symm
  · intro env C h c T out hprobe hout
    have hfr := runLoop_first_request_start T C env.events
      ⟨(resumeState ([] : List Nat)).1, [], []⟩ rfl
    simp only [downloadWithResume, hprobe] at hout
    split at hout
    case _ st heq =>
      simp only [Option.some_inj] at hout
      subst hout
      refine ⟨by simp [resumeState], ?_⟩
      intro q hq
      rw [heq] at hfr
      simp only [LoopResult.state, resumeState] at hfr
      rcases hfr with hfr | hfr
      · rw [hfr] at hq
        simp at hq
      · rw [hfr] at hq
        simp only [Option.mem_def, Option.some_inj] at hq
        rw [← hq]
        simp
    case _ st heq =>
      simp only [Option.some_inj] at hout
      subst hout
      refine ⟨by simp [resumeState], ?_⟩
      intro q hq
      rw [heq] at hfr
      simp only [LoopResult.state, resumeState] at hfr
      rcases hfr with hfr | hfr
      · rw [hfr] at hq
        simp at hq
      · rw [hfr] at hq
        simp only [Option.mem_def, Option.some_inj] at hq
        rw [← hq]
        simp
    case _ m st heq =>
      simp only [Option.some_inj] at hout
      subst hout
      refine ⟨by simp [resumeState], ?_⟩
      intro q hq
      rw [heq] at hfr
      simp only [LoopResult.state, resumeState] at hfr
      rcases hfr with hfr | hfr
      · rw [hfr] at hq
        simp at hq
      · rw [hfr] at hq
        simp only [Option.mem_def, Option.some_inj] at hq
        rw [← hq]
        simp
    case _ st heq =>
      exact absurd hout (by simp)

/-- Witness for C9: the same URL basename at two timestamps one second
apart yields distinct destination paths. -/
theorem C9_fresh_timestamped_destination_witness :
    "20240101_000000" ≠ "20240101_000001" ∧
    generateOutputFilename (some "vid.mp4") FileType.video "20240101_000000" "out"
      ≠ generateOutputFilename (some "vid.mp4") FileType.video "20240101_000001" "out" := by
  exact ⟨by decide,
    (C9_fresh_timestamped_destination "out" (some "vid.mp4") FileType.video).2.2.2.1
      "20240101_000000" "20240101_000001" (by decide)⟩
